import Mathlib

/-
Verification of the neural scalar evaluation engine of
tiny-differentiable-simulator (src/examples/neural_scalar.h).

The engine is shallowly embedded: the scalar domain is modelled by the
integers, nodes live in an explicit engine state addressed by natural
number identifiers (standing for the C++ object addresses), and the
recursive lazy evaluation protocol is written with an explicit fuel
argument (the C++ code recurses without a termination check; a cyclic
graph diverges, which the embedding renders as fuel exhaustion).
-/

namespace NeuralScalar

/-- Node identifier: stands for the address of a NeuralScalar object. -/
abbrev NodeId := Nat

/-- The scalar domain. The C++ type is a template parameter supporting
addition, subtraction, multiplication, division, comparisons and a zero;
it is modelled by the integers, whose arithmetic the kernel evaluates,
since no claim depends on further laws of the domain. -/
abbrev Scalar := Int

/-- Modelled from the spec: activation kinds of the external
TinyNeuralNetwork collaborator (tiny_neural_network.h is not part of the
source tree; only NN_ACT_IDENTITY is referenced by the core). -/
inductive TinyNeuralNetworkActivation where
  | NN_ACT_IDENTITY
  | NN_ACT_TANH
  | NN_ACT_RELU
  | NN_ACT_SIGMOID
deriving DecidableEq

/-- Modelled from the spec: weight initialization policies of the external
TinyNeuralNetwork collaborator (default policy of the core is
NN_INIT_XAVIER, a variance scaling scheme). -/
inductive TinyNeuralNetworkInitialization where
  | NN_INIT_ZERO
  | NN_INIT_XAVIER
deriving DecidableEq

/-- Modelled from the spec: the external TinyNeuralNetwork collaborator,
consumed opaquely through compute / input_dim / output_dim / num_layers /
set_input_dim / add_linear_layer and a weight re-initialization entry
point. Weight storage and the forward pass are out of scope of the spec,
so the forward pass is carried as an opaque field `compute` and the
weight state is abstracted to a counter `init_count` (bumped by every
full re-initialization) together with the policy last used,
`last_init`. The layer list records the layers added after the input
layer; the C++ layer count includes the input layer, hence
`num_layers = layers.length + 1` and a freshly constructed network
reports one layer. -/
structure TinyNeuralNetwork where
  input_dim : Nat := 0
  layers : List (TinyNeuralNetworkActivation × Nat) := []
  init_count : Nat := 0
  last_init : Option TinyNeuralNetworkInitialization := none
  compute : List Scalar → List Scalar := fun _ => []

/-- Number of layers as reported by the C++ network: the input layer
counts, so a network with no added layers reports 1. -/
def TinyNeuralNetwork.num_layers (net : TinyNeuralNetwork) : Nat :=
  net.layers.length + 1

/-- Output dimension: width of the last added layer, 0 if none. -/
def TinyNeuralNetwork.output_dim (net : TinyNeuralNetwork) : Nat :=
  match net.layers.getLast? with
  | none => 0
  | some l => l.2

/-- Declares the input dimensionality. -/
def TinyNeuralNetwork.set_input_dim (net : TinyNeuralNetwork) (d : Nat) :
    TinyNeuralNetwork :=
  { net with input_dim := d }

/-- Appends a linear layer of the given activation and width. -/
def TinyNeuralNetwork.add_linear_layer (net : TinyNeuralNetwork)
    (act : TinyNeuralNetworkActivation) (width : Nat) : TinyNeuralNetwork :=
  { net with layers := net.layers ++ [(act, width)] }

/-- Modelled from the spec: full re-initialization of all network weights
under the given policy, abstracted to bumping the initialization counter
and recording the policy. -/
def TinyNeuralNetwork.init_weights (net : TinyNeuralNetwork)
    (method : TinyNeuralNetworkInitialization) : TinyNeuralNetwork :=
  { net with init_count := net.init_count + 1, last_init := some method }

/-- A deferred wiring template: input names plus a network, applied when a
node is later assigned the blueprint name. -/
structure NeuralBlueprint where
  input_names : List String
  net : TinyNeuralNetwork

/-- One NeuralScalar object. `value` is the externally assigned scalar,
`cache` the memoized evaluation result (valid when `is_dirty = false`),
`inputs` the ordered input connections (a `none` entry is a null
pointer), `net` the embedded network, `name` the optional registry name
(empty string means unnamed) and `is_residual` selects residual
combination. Field defaults mirror the C++ member initializers; the C++
cache member is default-constructed and never read while dirty, so it is
modelled as 0. -/
structure NeuralScalarNode where
  value : Scalar := 0
  cache : Scalar := 0
  is_dirty : Bool := true
  inputs : List (Option NodeId) := []
  net : TinyNeuralNetwork := {}
  name : String := ""
  is_residual : Bool := true

/-- The constructor taking a literal scalar value. -/
def mkNeuralScalar (v : Scalar) : NeuralScalarNode :=
  { value := v, is_dirty := true }

/-- Whole engine state: the node heap, the two process-wide registries
(the name registry maps a present key to a possibly null node pointer,
mirroring std::map, whose bracket access inserts a null entry), and the
two function-local static vectors of evaluate_network_: `input_buffer`
is the static input vector (absent until its first initialization) and
`output0` is slot 0 of the static output vector (initialized to zero).
`compute_count` instruments the number of network compute invocations. -/
structure EngineState where
  nodes : NodeId → Option NeuralScalarNode
  named_scalars : String → Option (Option NodeId) := fun _ => none
  blueprints : String → Option NeuralBlueprint := fun _ => none
  input_buffer : Option (List Scalar) := none
  output0 : Scalar := 0
  compute_count : Nat := 0

/-- Dereferences a node pointer. -/
def lookupNode (s : EngineState) (id : NodeId) : Option NeuralScalarNode :=
  s.nodes id

/-- Writes a node back to the heap. -/
def setNode (s : EngineState) (id : NodeId) (n : NeuralScalarNode) :
    EngineState :=
  { s with nodes := fun j => if j = id then some n else s.nodes j }

/-- Bracket access on the name registry: returns the stored entry,
inserting a null entry first when the key is absent. -/
def getOrInsertNamed (s : EngineState) (nm : String) :
    Option NodeId × EngineState :=
  match s.named_scalars nm with
  | some e => (e, s)
  | none =>
      (none,
        { s with
          named_scalars := fun k =>
            if k = nm then some none else s.named_scalars k })

/-- Registers a node as the current holder of a name (last assign wins). -/
def registerNamed (s : EngineState) (nm : String) (id : NodeId) :
    EngineState :=
  { s with
    named_scalars := fun k =>
      if k = nm then some (some id) else s.named_scalars k }

/-- retrieve: the registered node for a name, or none when the name is
unregistered or its stored pointer is null. -/
def retrieve (s : EngineState) (nm : String) : Option NodeId :=
  match s.named_scalars nm with
  | none => none
  | some e => e

/-- add_blueprint: stores or overwrites a blueprint under a name. -/
def add_blueprint (s : EngineState) (nm : String) (input_names : List String)
    (net : TinyNeuralNetwork) : EngineState :=
  { s with
    blueprints := fun k =>
      if k = nm then some ⟨input_names, net⟩ else s.blueprints k }

mutual

/-- evaluate: returns the cache when clean; with no inputs caches and
returns the stored value; otherwise runs the network evaluation and
combines its output with the stored value according to is_residual,
caching the result and clearing the dirty flag. Fuel exhaustion and
dereferencing a dangling node yield none. -/
def evaluate : Nat → EngineState → NodeId → Option (Scalar × EngineState)
  | 0, _, _ => none
  | fuel + 1, s, id =>
      match lookupNode s id with
      | none => none
      | some n =>
          if n.is_dirty = false then
            some (n.cache, s)
          else if n.inputs = [] then
            some (n.value, setNode s id { n with is_dirty := false, cache := n.value })
          else
            match evalNetwork fuel s id with
            | none => none
            | some (net_output, s1) =>
                match lookupNode s1 id with
                | none => none
                | some n2 =>
                    let c := if n2.is_residual then n2.value + net_output
                             else net_output
                    some (c, setNode s1 id { n2 with cache := c, is_dirty := false })
termination_by structural fuel _ _ => fuel

/-- evaluate_network_: when the node has a nonempty name whose registry
entry (bracket access, inserting a null entry when absent) is a
different node, delegate to that node evaluating its network; a null
registry entry is a null pointer dereference, modelled as none.
Otherwise run the body on this node. -/
def evalNetwork : Nat → EngineState → NodeId → Option (Scalar × EngineState)
  | 0, _, _ => none
  | fuel + 1, s, id =>
      match lookupNode s id with
      | none => none
      | some n =>
          if n.name = "" then
            evalNetworkBody fuel s id
          else
            match getOrInsertNamed s n.name with
            | (entry, s1) =>
                if entry = some id then
                  evalNetworkBody fuel s1 id
                else
                  match entry with
                  | none => none
                  | some other => evalNetwork fuel s1 other
termination_by structural fuel _ _ => fuel

/-- Body of evaluate_network_ past the alias check: the static input
vector is created (zero filled, sized by the inputs of the first node to
reach this point) on first use and reused afterwards; present inputs are
evaluated in order and written to their slot (an out of range slot is an
out of bounds write, modelled as none), null inputs leave their slot
untouched; then compute runs on the whole static vector, its first
output value is written to slot 0 of the static output vector, and that
slot is returned. -/
def evalNetworkBody : Nat → EngineState → NodeId → Option (Scalar × EngineState)
  | 0, _, _ => none
  | fuel + 1, s, id =>
      match lookupNode s id with
      | none => none
      | some n =>
          let buf := match s.input_buffer with
            | none => List.replicate n.inputs.length 0
            | some b => b
          match evalInputsLoop fuel { s with input_buffer := some buf } n.inputs 0 with
          | none => none
          | some s1 =>
              match lookupNode s1 id with
              | none => none
              | some n2 =>
                  let args := s1.input_buffer.getD []
                  let outs := n2.net.compute args
                  let s2 := { s1 with
                    output0 := outs.headD s1.output0,
                    compute_count := s1.compute_count + 1 }
                  some (s2.output0, s2)
termination_by structural fuel _ _ => fuel

/-- The input gathering loop of evaluate_network_: walks the input list
with its index, skipping null entries and writing the evaluation result
of each present entry to the corresponding slot of the static input
vector. -/
def evalInputsLoop : Nat → EngineState → List (Option NodeId) → Nat →
    Option EngineState
  | 0, _, _, _ => none
  | _ + 1, s, [], _ => some s
  | fuel + 1, s, none :: rest, i => evalInputsLoop fuel s rest (i + 1)
  | fuel + 1, s, some inpId :: rest, i =>
      match evaluate fuel s inpId with
      | none => none
      | some (v, s1) =>
          match s1.input_buffer with
          | none => none
          | some buf =>
              if i < buf.length then
                evalInputsLoop fuel
                  { s1 with input_buffer := some (buf.set i v) } rest (i + 1)
              else none
termination_by structural fuel _ _ _ => fuel

end

/-- set_dirty: marks the node dirty only when the network has a nonzero
output dimension. -/
def set_dirty (n : NeuralScalarNode) : NeuralScalarNode :=
  if n.net.output_dim ≠ 0 then { n with is_dirty := true } else n

/-- The network transformation performed by connect: grow the declared
input dimensionality by one, add a linear output layer of width 1 with
the given activation when the network reports a single layer (no layer
added yet), then re-initialize all weights with the default policy. -/
def connectNet (net : TinyNeuralNetwork)
    (activation : TinyNeuralNetworkActivation) : TinyNeuralNetwork :=
  let net1 := net.set_input_dim (net.input_dim + 1)
  let net2 := if net1.num_layers = 1 then net1.add_linear_layer activation 1
              else net1
  net2.init_weights .NN_INIT_XAVIER

/-- connect: appends an input connection (a node pointer, possibly null),
applies the connect network transformation, and applies set_dirty. -/
def connect (s : EngineState) (id : NodeId) (scalar : Option NodeId)
    (activation : TinyNeuralNetworkActivation := .NN_ACT_IDENTITY) :
    Option EngineState :=
  match lookupNode s id with
  | none => none
  | some n =>
      let n1 :=
        { n with
          inputs := n.inputs ++ [scalar]
          net := connectNet n.net activation }
      some (setNode s id (set_dirty n1))

/-- Resolves a list of blueprint input names against the name registry in
order; the first name with no registered node (or a null registry entry)
is the fatal assertion of assign, modelled as none. -/
def resolveNames (s : EngineState) : List String → Option (List NodeId)
  | [] => some []
  | nm :: rest =>
      match retrieve s nm with
      | none => none
      | some i =>
          match resolveNames s rest with
          | none => none
          | some is => some (i :: is)

/-- assign: sets the node name; when a blueprint is registered under the
name, resolves its input names (fatal assertion, modelled as none, when
one is unresolved, in which case the node is never registered), appends
the resolved nodes to the inputs and overwrites the network with the
blueprint network; finally registers the node as the current holder of
the name. -/
def assign (s : EngineState) (id : NodeId) (nm : String) :
    Option EngineState :=
  match lookupNode s id with
  | none => none
  | some n =>
      let n1 := { n with name := nm }
      match s.blueprints nm with
      | none => some (registerNamed (setNode s id n1) nm id)
      | some bp =>
          match resolveNames s bp.input_names with
          | none => none
          | some rs =>
              let n2 :=
                { n1 with
                  inputs := n1.inputs ++ rs.map some
                  net := bp.net }
              some (registerNamed (setNode s id n2) nm id)

/-
The operator surface. In C++ the binary operators take two nodes by
const reference and evaluate both; the C++ evaluation order of the two
operand expressions is unspecified and is fixed here as left operand
first. The multiplication source text multiplies the right evaluation
result by the left one, which is recorded faithfully.
-/

/-- Binary plus: evaluates both operands and wraps the sum in a plain new
node. -/
def opAdd (fuel : Nat) (s : EngineState) (a b : NodeId) :
    Option (NeuralScalarNode × EngineState) :=
  match evaluate fuel s a with
  | none => none
  | some (va, s1) =>
      match evaluate fuel s1 b with
      | none => none
      | some (vb, s2) => some (mkNeuralScalar (va + vb), s2)

/-- Binary minus. -/
def opSub (fuel : Nat) (s : EngineState) (a b : NodeId) :
    Option (NeuralScalarNode × EngineState) :=
  match evaluate fuel s a with
  | none => none
  | some (va, s1) =>
      match evaluate fuel s1 b with
      | none => none
      | some (vb, s2) => some (mkNeuralScalar (va - vb), s2)

/-- Binary times: the source multiplies the right result by the left. -/
def opMul (fuel : Nat) (s : EngineState) (a b : NodeId) :
    Option (NeuralScalarNode × EngineState) :=
  match evaluate fuel s a with
  | none => none
  | some (va, s1) =>
      match evaluate fuel s1 b with
      | none => none
      | some (vb, s2) => some (mkNeuralScalar (vb * va), s2)

/-- Binary division. -/
def opDiv (fuel : Nat) (s : EngineState) (a b : NodeId) :
    Option (NeuralScalarNode × EngineState) :=
  match evaluate fuel s a with
  | none => none
  | some (va, s1) =>
      match evaluate fuel s1 b with
      | none => none
      | some (vb, s2) => some (mkNeuralScalar (va / vb), s2)

/-- Unary negation: evaluates the operand and wraps the negated scalar. -/
def opNeg (fuel : Nat) (s : EngineState) (a : NodeId) :
    Option (NeuralScalarNode × EngineState) :=
  match evaluate fuel s a with
  | none => none
  | some (va, s1) => some (mkNeuralScalar (-va), s1)

/-- Less than on the evaluated scalars. -/
def opLt (fuel : Nat) (s : EngineState) (a b : NodeId) :
    Option (Bool × EngineState) :=
  match evaluate fuel s a with
  | none => none
  | some (va, s1) =>
      match evaluate fuel s1 b with
      | none => none
      | some (vb, s2) => some (decide (va < vb), s2)

/-- At most, on the evaluated scalars. -/
def opLe (fuel : Nat) (s : EngineState) (a b : NodeId) :
    Option (Bool × EngineState) :=
  match evaluate fuel s a with
  | none => none
  | some (va, s1) =>
      match evaluate fuel s1 b with
      | none => none
      | some (vb, s2) => some (decide (va ≤ vb), s2)

/-- Greater than on the evaluated scalars. -/
def opGt (fuel : Nat) (s : EngineState) (a b : NodeId) :
    Option (Bool × EngineState) :=
  match evaluate fuel s a with
  | none => none
  | some (va, s1) =>
      match evaluate fuel s1 b with
      | none => none
      | some (vb, s2) => some (decide (vb < va), s2)

/-- Equality on the evaluated scalars. -/
def opEq (fuel : Nat) (s : EngineState) (a b : NodeId) :
    Option (Bool × EngineState) :=
  match evaluate fuel s a with
  | none => none
  | some (va, s1) =>
      match evaluate fuel s1 b with
      | none => none
      | some (vb, s2) => some (decide (va = vb), s2)

/-- Inequality on the evaluated scalars. -/
def opNe (fuel : Nat) (s : EngineState) (a b : NodeId) :
    Option (Bool × EngineState) :=
  match evaluate fuel s a with
  | none => none
  | some (va, s1) =>
      match evaluate fuel s1 b with
      | none => none
      | some (vb, s2) => some (decide (va ≠ vb), s2)

/-- Assignment from another node: evaluates the right hand side, then
replaces the stored value of the target and marks it dirty. -/
def assignFromNode (fuel : Nat) (s : EngineState) (target src : NodeId) :
    Option EngineState :=
  match evaluate fuel s src with
  | none => none
  | some (v, s1) =>
      match lookupNode s1 target with
      | none => none
      | some n => some (setNode s1 target { n with value := v, is_dirty := true })

/-- Assignment from a raw scalar: replaces the stored value and marks
dirty. -/
def assignFromScalar (s : EngineState) (target : NodeId) (v : Scalar) :
    Option EngineState :=
  match lookupNode s target with
  | none => none
  | some n => some (setNode s target { n with value := v, is_dirty := true })

/-- Assignment from a double: the scalar constructed from the literal
replaces the stored value and the node is marked dirty (the double is
modelled by the scalar it converts to). -/
def assignFromDouble (s : EngineState) (target : NodeId) (v : Scalar) :
    Option EngineState :=
  match lookupNode s target with
  | none => none
  | some n => some (setNode s target { n with value := v, is_dirty := true })

/-- Compound plus assignment: adds the evaluated operand to the stored
value in place and marks the target dirty. -/
def addAssign (fuel : Nat) (s : EngineState) (target rhs : NodeId) :
    Option EngineState :=
  match evaluate fuel s rhs with
  | none => none
  | some (v, s1) =>
      match lookupNode s1 target with
      | none => none
      | some n =>
          some (setNode s1 target { n with value := n.value + v, is_dirty := true })

/-- Compound minus assignment. -/
def subAssign (fuel : Nat) (s : EngineState) (target rhs : NodeId) :
    Option EngineState :=
  match evaluate fuel s rhs with
  | none => none
  | some (v, s1) =>
      match lookupNode s1 target with
      | none => none
      | some n =>
          some (setNode s1 target { n with value := n.value - v, is_dirty := true })

/-- Compound times assignment. -/
def mulAssign (fuel : Nat) (s : EngineState) (target rhs : NodeId) :
    Option EngineState :=
  match evaluate fuel s rhs with
  | none => none
  | some (v, s1) =>
      match lookupNode s1 target with
      | none => none
      | some n =>
          some (setNode s1 target { n with value := n.value * v, is_dirty := true })

/-- Compound division assignment. -/
def divAssign (fuel : Nat) (s : EngineState) (target rhs : NodeId) :
    Option EngineState :=
  match evaluate fuel s rhs with
  | none => none
  | some (v, s1) =>
      match lookupNode s1 target with
      | none => none
      | some n =>
          some (setNode s1 target { n with value := n.value / v, is_dirty := true })

/-
Basic facts about the heap and registry primitives.
-/

theorem lookupNode_setNode_self (s : EngineState) (id : NodeId)
    (n : NeuralScalarNode) : lookupNode (setNode s id n) id = some n := by
  simp [lookupNode, setNode]

theorem lookupNode_registerNamed (s : EngineState) (nm : String) (id j : NodeId) :
    lookupNode (registerNamed s nm id) j = lookupNode s j := rfl

theorem compute_count_setNode (s : EngineState) (id : NodeId)
    (n : NeuralScalarNode) : (setNode s id n).compute_count = s.compute_count := rfl

/-
Claims C2 and C3: evaluation of nodes with no inputs and of clean nodes.
-/

/-- C2: a node whose inputs list is empty evaluates, when dirty, to
exactly its stored value, caching it and becoming clean, with the
network compute invocation count unchanged; when clean (in which case
its cache equals its value on every state the engine operations can
build) it returns the cached value with no state change, so the network
compute is never invoked either way; and the constructor from a literal
value v builds a node holding exactly v, with no inputs, dirty, and with
a default (layer free) network, so it always evaluates to v whatever
is_residual holds. -/
theorem C2_no_input_identity (fuel : Nat) (s : EngineState) (id : NodeId)
    (n : NeuralScalarNode) (v : Scalar)
    (h1 : lookupNode s id = some n) (h2 : n.inputs = []) :
    (n.is_dirty = true →
      evaluate (fuel + 1) s id
        = some (n.value,
            setNode s id { n with is_dirty := false, cache := n.value }) ∧
      (setNode s id { n with is_dirty := false, cache := n.value }).compute_count
        = s.compute_count) ∧
    (n.is_dirty = false → n.cache = n.value →
      evaluate (fuel + 1) s id = some (n.value, s)) ∧
    (mkNeuralScalar v).value = v ∧
    (mkNeuralScalar v).inputs = [] ∧
    (mkNeuralScalar v).is_dirty = true ∧
    (mkNeuralScalar v).net = {} := by
  refine ⟨?_, ?_, rfl, rfl, rfl, rfl⟩
  · intro h3
    exact ⟨by simp [evaluate, h1, h2, h3], rfl⟩
  · intro h3 h4
    rw [← h4]
    simp [evaluate, h1, h3]

def w2node : NeuralScalarNode := { value := 42, is_residual := false }

def w2 : EngineState := { nodes := fun j => if j = 0 then some w2node else none }

/-- C2 witness: a concrete dirty node with no inputs evaluates to its
stored value 42 with no compute invocation. -/
theorem C2_no_input_identity_witness :
    (evaluate 1 w2 0
      = some (w2node.value,
          setNode w2 0 { w2node with is_dirty := false, cache := w2node.value }) ∧
    (setNode w2 0 { w2node with is_dirty := false, cache := w2node.value }).compute_count
      = w2.compute_count) ∧
    (mkNeuralScalar 7).value = 7 ∧
    (mkNeuralScalar 7).inputs = [] ∧
    (mkNeuralScalar 7).is_dirty = true ∧
    (mkNeuralScalar 7).net = {} :=
  have h := C2_no_input_identity 0 w2 0 w2node 7 rfl rfl
  ⟨h.1 rfl, h.2.2.1, h.2.2.2.1, h.2.2.2.2.1, h.2.2.2.2.2⟩

/-- C3: a clean node evaluates to its cache with the state unchanged (in
particular the compute invocation count is unchanged), and a second
consecutive evaluation returns the identical result. -/
theorem C3_clean_idempotent (fuel fuel2 : Nat) (s : EngineState) (id : NodeId)
    (n : NeuralScalarNode)
    (h1 : lookupNode s id = some n) (h2 : n.is_dirty = false) :
    evaluate (fuel + 1) s id = some (n.cache, s) ∧
    ((evaluate (fuel + 1) s id).bind fun p => evaluate (fuel2 + 1) p.2 id)
      = some (n.cache, s) ∧
    (evaluate (fuel + 1) s id).map (fun p => p.2.compute_count)
      = some s.compute_count := by
  have h : evaluate (fuel + 1) s id = some (n.cache, s) := by
    simp [evaluate, h1, h2]
  have h2nd : evaluate (fuel2 + 1) s id = some (n.cache, s) := by
    simp [evaluate, h1, h2]
  exact ⟨h, by simp [h, h2nd], by simp [h]⟩

def w3node : NeuralScalarNode := { value := 5, cache := 9, is_dirty := false }

def w3 : EngineState := { nodes := fun j => if j = 0 then some w3node else none }

/-- C3 witness: a concrete clean node returns its cache 9 twice with the
state untouched. -/
theorem C3_clean_idempotent_witness :
    evaluate 1 w3 0 = some (w3node.cache, w3) ∧
    ((evaluate 1 w3 0).bind fun p => evaluate 1 p.2 0)
      = some (w3node.cache, w3) ∧
    (evaluate 1 w3 0).map (fun p => p.2.compute_count) = some w3.compute_count :=
  C3_clean_idempotent 0 0 w3 0 w3node rfl rfl

/-
Claim C1: the combine step of evaluation for a dirty node with inputs
that is not an alias.
-/

/-- C1: for a dirty node with a nonempty inputs list whose name is empty
or currently registered to the node itself, evaluation runs the network
evaluation of the node itself (the body past the alias check) and, on
its result, sets the cache to value plus the network output when
is_residual holds and to the network output alone otherwise, clears the
dirty flag, and returns the cache. -/
theorem C1_residual_combine (fuel : Nat) (s : EngineState) (id : NodeId)
    (n : NeuralScalarNode)
    (h1 : lookupNode s id = some n) (h2 : n.is_dirty = true)
    (h3 : n.inputs ≠ [])
    (h4 : n.name = "" ∨ s.named_scalars n.name = some (some id)) :
    evaluate (fuel + 1) s id
      = (evalNetwork fuel s id).bind (fun p =>
          (lookupNode p.2 id).map (fun n2 =>
            ((if n2.is_residual then n2.value + p.1 else p.1),
              setNode p.2 id
                { n2 with
                  cache := if n2.is_residual then n2.value + p.1 else p.1
                  is_dirty := false }))) ∧
    evalNetwork (fuel + 1) s id = evalNetworkBody fuel s id := by
  constructor
  · simp only [evaluate, h1, h2, h3]
    simp only [Bool.true_eq_false, if_false, if_neg h3]
    cases hE : evalNetwork fuel s id with
    | none => simp
    | some p =>
        obtain ⟨out, s1⟩ := p
        cases hL : lookupNode s1 id with
        | none => simp [hL]
        | some n2 => simp [hL]
  · rcases h4 with h4 | h4
    · simp [evalNetwork, h1, h4]
    · by_cases hnm : n.name = ""
      · simp [evalNetwork, h1, hnm]
      · simp [evalNetwork, h1, hnm, getOrInsertNamed, h4]

def w1input : NeuralScalarNode := { value := 3 }

def w1node : NeuralScalarNode :=
  { value := 100, inputs := [some 1],
    net := { input_dim := 1, layers := [(.NN_ACT_IDENTITY, 1)],
             compute := fun args => [args.headD 0] } }

def w1 : EngineState :=
  { nodes := fun j =>
      if j = 0 then some w1node else if j = 1 then some w1input else none }

/-- C1 witness: a concrete dirty residual node with one input of value 3,
own value 100 and an identity network evaluates through the combine
step, producing 103. -/
theorem C1_residual_combine_witness :
    (evaluate 5 w1 0
      = (evalNetwork 4 w1 0).bind (fun p =>
          (lookupNode p.2 0).map (fun n2 =>
            ((if n2.is_residual then n2.value + p.1 else p.1),
              setNode p.2 0
                { n2 with
                  cache := if n2.is_residual then n2.value + p.1 else p.1
                  is_dirty := false }))) ∧
     evalNetwork 5 w1 0 = evalNetworkBody 4 w1 0) ∧
    (evaluate 5 w1 0).map Prod.fst = some 103 :=
  ⟨C1_residual_combine 4 w1 0 w1node rfl rfl (by decide) (Or.inl rfl),
   by decide⟩

/-
Claim C4: evaluation of a node whose nonempty name is registered to a
different node. The source delegates the network evaluation only and
then still combines with the own stored value and caches locally.
-/

def c4input : NeuralScalarNode := { value := 3 }

def c4alias : NeuralScalarNode :=
  { value := 100, inputs := [some 1], name := "x" }

def c4target : NeuralScalarNode :=
  { value := 10, inputs := [some 1], name := "x",
    net := { input_dim := 1, layers := [(.NN_ACT_IDENTITY, 1)],
             compute := fun args => [args.headD 0] } }

def c4s : EngineState :=
  { nodes := fun j =>
      if j = 0 then some c4alias else if j = 1 then some c4input
      else if j = 2 then some c4target else none,
    named_scalars := fun k => if k = "x" then some (some 2) else none }

/-- C4 counterexample: node 0 is dirty, has an input, carries name x, and
the registry maps x to node 2. Node 2 evaluates to 13 (its value 10 plus
its network output 3), but node 0 evaluates to 103 (its own value 100
plus the delegated network output 3), not to the result of node 2; and
the dirty flag of node 0 is cleared by the call rather than left
untouched. -/
theorem C4_counterexample :
    (evaluate 6 c4s 0).map Prod.fst = some 103 ∧
    (evaluate 6 c4s 2).map Prod.fst = some 13 ∧
    some (103 : Scalar) ≠ some 13 ∧
    ((evaluate 6 c4s 0).bind fun p => lookupNode p.2 0).map
        (fun n => n.is_dirty) = some false := by
  decide

/-- C4 amended: for a dirty node with nonempty inputs whose nonempty name
is registered to a different node, evaluation delegates only the network
evaluation to that other node, then combines the delegated network
output with the own stored value according to the own is_residual flag,
stores the result in the own cache, clears the own dirty flag and
returns the cache. -/
theorem C4_alias_delegation (fuel : Nat) (s : EngineState) (id other : NodeId)
    (n : NeuralScalarNode)
    (h1 : lookupNode s id = some n) (h2 : n.is_dirty = true)
    (h3 : n.inputs ≠ []) (h4 : n.name ≠ "")
    (h5 : s.named_scalars n.name = some (some other)) (h6 : other ≠ id) :
    evaluate (fuel + 2) s id
      = (evalNetwork fuel s other).bind (fun p =>
          (lookupNode p.2 id).map (fun n2 =>
            ((if n2.is_residual then n2.value + p.1 else p.1),
              setNode p.2 id
                { n2 with
                  cache := if n2.is_residual then n2.value + p.1 else p.1
                  is_dirty := false }))) := by
  have hdeleg : evalNetwork (fuel + 1) s id = evalNetwork fuel s other := by
    have : ¬ (some other = some id) := by
      intro hco
      exact h6 (Option.some.inj hco)
    simp [evalNetwork, h1, h4, getOrInsertNamed, h5, this]
  show evaluate (fuel + 1 + 1) s id = _
  simp only [evaluate, h1, h2, h3]
  simp only [Bool.true_eq_false, if_false, if_neg h3, hdeleg]
  cases hE : evalNetwork fuel s other with
  | none => simp
  | some p =>
      obtain ⟨out, s1⟩ := p
      cases hL : lookupNode s1 id with
      | none => simp [hL]
      | some n2 => simp [hL]

/-- C4 witness: in the concrete counterexample state, the amended
statement instantiates to the delegated evaluation of node 0 through
node 2, and the result is 103. -/
theorem C4_alias_delegation_witness :
    evaluate 6 c4s 0
      = (evalNetwork 4 c4s 2).bind (fun p =>
          (lookupNode p.2 0).map (fun n2 =>
            ((if n2.is_residual then n2.value + p.1 else p.1),
              setNode p.2 0
                { n2 with
                  cache := if n2.is_residual then n2.value + p.1 else p.1
                  is_dirty := false }))) ∧
    (evaluate 6 c4s 0).map Prod.fst = some 103 :=
  ⟨C4_alias_delegation 4 c4s 0 2 c4alias rfl rfl (by decide) (by decide)
      rfl (by decide),
   by decide⟩

/-
Claim C5: assign with and without a blueprint. The source appends the
resolved blueprint inputs to the existing inputs rather than replacing
them.
-/

theorem resolveNames_none_iff (s : EngineState) (l : List String) :
    resolveNames s l = none ↔ ∃ nm ∈ l, retrieve s nm = none := by
  induction l with
  | nil => simp [resolveNames]
  | cons a t ih =>
      cases h : retrieve s a with
      | none =>
          simp only [resolveNames, h]
          exact ⟨fun _ => ⟨a, List.mem_cons_self a t, h⟩, fun _ => trivial⟩
      | some i =>
          cases h2 : resolveNames s t with
          | none =>
              obtain ⟨nm, hmem, hr⟩ := ih.mp h2
              simp only [resolveNames, h, h2]
              exact ⟨fun _ => ⟨nm, List.mem_cons_of_mem _ hmem, hr⟩,
                     fun _ => trivial⟩
          | some is =>
              simp only [resolveNames, h, h2]
              constructor
              · intro hco
                exact absurd hco (by simp)
              · rintro ⟨nm, hmem, hr⟩
                rcases List.mem_cons.mp hmem with hEq | hmemT
                · rw [hEq] at hr
                  rw [hr] at h
                  exact absurd h (by simp)
                · have : resolveNames s t = none := ih.mpr ⟨nm, hmemT, hr⟩
                  rw [this] at h2
                  exact absurd h2 (by simp)

def c5bpnet : TinyNeuralNetwork :=
  { input_dim := 1, layers := [(.NN_ACT_IDENTITY, 1)],
    compute := fun args => [args.headD 0] }

def c5prior : NeuralScalarNode := { value := 50, inputs := [some 1] }

def c5x : NeuralScalarNode := { value := 4 }

def c5in : NeuralScalarNode := { value := 6 }

def c5s : EngineState :=
  { nodes := fun j =>
      if j = 0 then some c5prior else if j = 1 then some c5in
      else if j = 2 then some c5x else none,
    named_scalars := fun k => if k = "x" then some (some 2) else none,
    blueprints := fun k =>
      if k = "y" then some ⟨["x"], c5bpnet⟩ else none }

/-- C5 counterexample: node 0 already carries the input list holding node
1 when it is assigned name y, whose blueprint declares the single input
x, registered to node 2. The call appends: the resulting input list is
the prior input followed by node 2, so the blueprint inputs do not
overwrite the prior inputs and the first blueprint input is not the
first input of the node. -/
theorem C5_counterexample :
    ((assign c5s 0 "y").bind fun s2 => lookupNode s2 0).map (fun n => n.inputs)
      = some [some 1, some 2] ∧
    some [some 1, some 2] ≠ some ([some 2] : List (Option NodeId)) := by
  decide

/-- C5 amended: assign sets the node name and, on success, registers the
node as current holder of the name, overwriting any prior holder; when a
blueprint is registered under the name, every blueprint input name
without a currently registered node makes the call fatal (modelled as
none) with the node never registered, and otherwise the resolved
blueprint inputs are appended after the existing inputs (so they equal
the resolved list exactly when the node had no prior inputs) while the
blueprint network overwrites the node network. -/
theorem C5_assign (s : EngineState) (id : NodeId) (nm : String)
    (n : NeuralScalarNode) (h1 : lookupNode s id = some n) :
    (∀ s2, assign s id nm = some s2 →
      (∃ n2, lookupNode s2 id = some n2 ∧ n2.name = nm) ∧
      s2.named_scalars nm = some (some id)) ∧
    (∀ bp, s.blueprints nm = some bp →
      (∃ inm ∈ bp.input_names, retrieve s inm = none) →
      assign s id nm = none) ∧
    (∀ bp rs, s.blueprints nm = some bp →
      resolveNames s bp.input_names = some rs →
      assign s id nm
        = some (registerNamed
            (setNode s id
              { n with
                name := nm
                inputs := n.inputs ++ rs.map some
                net := bp.net }) nm id)) ∧
    (s.blueprints nm = none →
      assign s id nm
        = some (registerNamed (setNode s id { n with name := nm }) nm id)) := by
  refine ⟨?_, ?_, ?_, ?_⟩
  · intro s2 hs2
    cases hbp : s.blueprints nm with
    | none =>
        simp only [assign, h1, hbp] at hs2
        obtain rfl := Option.some.inj hs2
        refine ⟨⟨{ n with name := nm }, ?_, rfl⟩, ?_⟩
        · rw [lookupNode_registerNamed]
          exact lookupNode_setNode_self ..
        · simp [registerNamed]
    | some bp =>
        cases hrs : resolveNames s bp.input_names with
        | none => simp [assign, h1, hbp, hrs] at hs2
        | some rs =>
            simp only [assign, h1, hbp, hrs] at hs2
            obtain rfl := Option.some.inj hs2
            constructor
            · refine ⟨{ n with
                  name := nm
                  inputs := n.inputs ++ rs.map some
                  net := bp.net }, ?_, rfl⟩
              rw [lookupNode_registerNamed]
              exact lookupNode_setNode_self ..
            · simp [registerNamed]
  · intro bp hbp hex
    have hrs : resolveNames s bp.input_names = none :=
      (resolveNames_none_iff s bp.input_names).mpr hex
    simp [assign, h1, hbp, hrs]
  · intro bp rs hbp hrs
    simp [assign, h1, hbp, hrs]
  · intro hbp
    simp [assign, h1, hbp]

def c5fail : EngineState :=
  { nodes := fun j => if j = 0 then some c5prior else none,
    blueprints := fun k =>
      if k = "y" then some ⟨["z"], c5bpnet⟩ else none }

/-- C5 witness: with the blueprint input x registered, assigning name y
to node 0 succeeds, appends node 2 after the prior input and installs
the blueprint network; with an unregistered blueprint input z, the same
call is fatal. -/
theorem C5_assign_witness :
    assign c5s 0 "y"
      = some (registerNamed
          (setNode c5s 0
            { c5prior with
              name := "y"
              inputs := c5prior.inputs ++ [2].map some
              net := (⟨["x"], c5bpnet⟩ : NeuralBlueprint).net }) "y" 0) ∧
    assign c5fail 0 "y" = none :=
  ⟨(C5_assign c5s 0 "y" c5prior rfl).2.2.1 ⟨["x"], c5bpnet⟩ [2] rfl rfl,
   (C5_assign c5fail 0 "y" c5prior rfl).2.1 ⟨["z"], c5bpnet⟩ rfl
     ⟨"z", by decide, rfl⟩⟩

/-
Claim C6: the vector passed to compute. The function local static input
vector of evaluate_network_ is created once, zero filled, and reused by
every later network evaluation, so a null input entry contributes
whatever value the slot held from the previous network evaluation, which
is zero only the first time.
-/

def c6sum : TinyNeuralNetwork :=
  { input_dim := 2, layers := [(.NN_ACT_IDENTITY, 1)],
    compute := fun args => [args.foldl (· + ·) 0] }

def c6n1 : NeuralScalarNode := { value := 1 }

def c6n2 : NeuralScalarNode := { value := 2 }

def c6n3 : NeuralScalarNode := { value := 3 }

def c6B : NeuralScalarNode :=
  { value := 0, inputs := [some 2, some 3], net := c6sum,
    is_residual := false }

def c6A : NeuralScalarNode :=
  { value := 0, inputs := [some 1, none], net := c6sum,
    is_residual := false }

def c6s : EngineState :=
  { nodes := fun j =>
      if j = 1 then some c6n1 else if j = 2 then some c6n2
      else if j = 3 then some c6n3 else if j = 4 then some c6B
      else if j = 5 then some c6A else none }

/-- C6: evaluation of the code at the failing input. Node 5 has the
inputs node 1 (value 1) and a null entry, and a summing single output
network in replace mode. Evaluated first, the static input vector is
fresh and zero filled, the null entry contributes 0 and the result is 1,
as the claim predicts. But after node 4 (inputs of values 2 and 3, same
network shape) has been evaluated, the static vector holds 2 and 3, so
the null entry of node 5 now contributes the stale 3: the network
receives the vector holding 1 and 3 and node 5 evaluates to 4, not 1. -/
theorem C6_static_buffer_stale :
    (evaluate 10 c6s 5).map Prod.fst = some 1 ∧
    (evaluate 10 c6s 4).map Prod.fst = some 5 ∧
    ((evaluate 10 c6s 4).bind fun p => evaluate 10 p.2 5).map Prod.fst
      = some 4 ∧
    some (4 : Scalar) ≠ some 1 := by
  decide

/-
Claim C7: connect.
-/

/-- Fields of a node untouched by set_dirty. -/
theorem set_dirty_fields (n : NeuralScalarNode) :
    (set_dirty n).inputs = n.inputs ∧ (set_dirty n).net = n.net ∧
    (set_dirty n).value = n.value ∧ (set_dirty n).cache = n.cache ∧
    (set_dirty n).name = n.name := by
  unfold set_dirty
  by_cases h : n.net.output_dim ≠ 0 <;> simp [h]

/-- set_dirty marks the node dirty exactly when the network output
dimension is nonzero. -/
theorem set_dirty_is_dirty (n : NeuralScalarNode) :
    (n.net.output_dim ≠ 0 → (set_dirty n).is_dirty = true) ∧
    (n.net.output_dim = 0 → (set_dirty n).is_dirty = n.is_dirty) := by
  unfold set_dirty
  constructor
  · intro h
    simp [h]
  · intro h
    simp [h]

theorem connectNet_input_dim (net : TinyNeuralNetwork)
    (act : TinyNeuralNetworkActivation) :
    (connectNet net act).input_dim = net.input_dim + 1 := by
  unfold connectNet
  dsimp only
  split <;> rfl

theorem connectNet_layers_nil (net : TinyNeuralNetwork)
    (act : TinyNeuralNetworkActivation) (h : net.layers = []) :
    (connectNet net act).layers = [(act, 1)] := by
  unfold connectNet
  simp only [TinyNeuralNetwork.num_layers, TinyNeuralNetwork.set_input_dim, h]
  simp [TinyNeuralNetwork.init_weights, TinyNeuralNetwork.add_linear_layer, h]

theorem connectNet_layers_ne (net : TinyNeuralNetwork)
    (act : TinyNeuralNetworkActivation) (h : net.layers ≠ []) :
    (connectNet net act).layers = net.layers := by
  unfold connectNet
  simp only [TinyNeuralNetwork.num_layers, TinyNeuralNetwork.set_input_dim]
  rw [if_neg]
  · rfl
  · simpa using fun hco => h (List.length_eq_zero.mp hco)

theorem connectNet_init_count (net : TinyNeuralNetwork)
    (act : TinyNeuralNetworkActivation) :
    (connectNet net act).init_count = net.init_count + 1 := by
  unfold connectNet
  dsimp only
  split <;> rfl

theorem connectNet_last_init (net : TinyNeuralNetwork)
    (act : TinyNeuralNetworkActivation) :
    (connectNet net act).last_init = some .NN_INIT_XAVIER := by
  unfold connectNet
  dsimp only
  split <;> rfl

/-- C7: connect appends the given node pointer to the inputs, grows the
declared network input dimensionality by exactly one, adds a single
linear output layer of width one with the given activation when the
network had no layer yet, fully re-initializes the network weights with
the default policy on every call, and marks the node dirty, where the
dirty marking goes through set_dirty and therefore only has an effect
when the resulting network has a nonzero output dimension. -/
theorem C7_connect (s : EngineState) (id : NodeId) (sc : Option NodeId)
    (act : TinyNeuralNetworkActivation) (n : NeuralScalarNode)
    (h1 : lookupNode s id = some n) :
    ((connect s id sc act).bind fun s2 => lookupNode s2 id).map
        (fun n1 => n1.inputs) = some (n.inputs ++ [sc]) ∧
    ((connect s id sc act).bind fun s2 => lookupNode s2 id).map
        (fun n1 => n1.net.input_dim) = some (n.net.input_dim + 1) ∧
    (n.net.layers = [] →
      ((connect s id sc act).bind fun s2 => lookupNode s2 id).map
          (fun n1 => n1.net.layers) = some [(act, 1)]) ∧
    (n.net.layers ≠ [] →
      ((connect s id sc act).bind fun s2 => lookupNode s2 id).map
          (fun n1 => n1.net.layers) = some n.net.layers) ∧
    ((connect s id sc act).bind fun s2 => lookupNode s2 id).map
        (fun n1 => n1.net.init_count) = some (n.net.init_count + 1) ∧
    ((connect s id sc act).bind fun s2 => lookupNode s2 id).map
        (fun n1 => n1.net.last_init) = some (some .NN_INIT_XAVIER) ∧
    (∀ n1, ((connect s id sc act).bind fun s2 => lookupNode s2 id) = some n1 →
      (n1.net.output_dim ≠ 0 → n1.is_dirty = true) ∧
      (n1.net.output_dim = 0 → n1.is_dirty = n.is_dirty)) := by
  have hres : ((connect s id sc act).bind fun s2 => lookupNode s2 id)
      = some (set_dirty
          { n with
            inputs := n.inputs ++ [sc]
            net := connectNet n.net act }) := by
    simp [connect, h1, lookupNode_setNode_self]
  obtain ⟨hfi, hfn, _, _, _⟩ := set_dirty_fields
    { n with inputs := n.inputs ++ [sc], net := connectNet n.net act }
  refine ⟨?_, ?_, ?_, ?_, ?_, ?_, ?_⟩
  · rw [hres]
    simp only [Option.map_some']
    rw [hfi]
  · rw [hres]
    simp only [Option.map_some']
    rw [hfn]
    show some ((connectNet n.net act).input_dim) = some (n.net.input_dim + 1)
    rw [connectNet_input_dim]
  · intro hl
    rw [hres]
    simp only [Option.map_some']
    rw [hfn]
    show some ((connectNet n.net act).layers) = some [(act, 1)]
    rw [connectNet_layers_nil n.net act hl]
  · intro hl
    rw [hres]
    simp only [Option.map_some']
    rw [hfn]
    show some ((connectNet n.net act).layers) = some n.net.layers
    rw [connectNet_layers_ne n.net act hl]
  · rw [hres]
    simp only [Option.map_some']
    rw [hfn]
    show some ((connectNet n.net act).init_count) = some (n.net.init_count + 1)
    rw [connectNet_init_count]
  · rw [hres]
    simp only [Option.map_some']
    rw [hfn]
    show some ((connectNet n.net act).last_init) = some (some .NN_INIT_XAVIER)
    rw [connectNet_last_init]
  · intro n1 hn1
    rw [hres] at hn1
    obtain rfl := Option.some.inj hn1
    obtain ⟨hpos, hzero⟩ := set_dirty_is_dirty
      { n with inputs := n.inputs ++ [sc], net := connectNet n.net act }
    constructor
    · intro hd
      rw [hfn] at hd
      exact hpos hd
    · intro hd
      rw [hfn] at hd
      exact hzero hd

def w7node : NeuralScalarNode := { value := 5, cache := 5, is_dirty := false }

def w7other : NeuralScalarNode := { value := 8 }

def w7 : EngineState :=
  { nodes := fun j =>
      if j = 0 then some w7node else if j = 1 then some w7other else none }

/-- C7 witness: connecting node 1 to the clean fresh node 0 (default,
layer free network) appends the input, grows the input dimensionality to
one, creates the single identity output layer, re-initializes the
weights once with the default policy, and makes the node dirty since the
new network has one output. -/
theorem C7_connect_witness :
    ((connect w7 0 (some 1) .NN_ACT_IDENTITY).bind fun s2 => lookupNode s2 0).map
        (fun n1 => n1.inputs) = some [some 1] ∧
    ((connect w7 0 (some 1) .NN_ACT_IDENTITY).bind fun s2 => lookupNode s2 0).map
        (fun n1 => n1.net.input_dim) = some 1 ∧
    ((connect w7 0 (some 1) .NN_ACT_IDENTITY).bind fun s2 => lookupNode s2 0).map
        (fun n1 => n1.net.layers) = some [(.NN_ACT_IDENTITY, 1)] ∧
    ((connect w7 0 (some 1) .NN_ACT_IDENTITY).bind fun s2 => lookupNode s2 0).map
        (fun n1 => n1.net.init_count) = some 1 ∧
    ((connect w7 0 (some 1) .NN_ACT_IDENTITY).bind fun s2 => lookupNode s2 0).map
        (fun n1 => n1.net.last_init) = some (some .NN_INIT_XAVIER) ∧
    ((connect w7 0 (some 1) .NN_ACT_IDENTITY).bind fun s2 => lookupNode s2 0).map
        (fun n1 => n1.is_dirty) = some true := by
  have h := C7_connect w7 0 (some 1) .NN_ACT_IDENTITY w7node rfl
  exact ⟨h.1, h.2.1, h.2.2.1 rfl, h.2.2.2.2.1, h.2.2.2.2.2.1, by decide⟩

/-
Claim C8: the value level operator surface.
-/

/-- C8: every binary operator evaluates both operands in sequence and
returns a plain new node, built by the literal value constructor, with
no inputs and a default network, wrapping the operator applied to the
two evaluated scalars (the multiplication source text multiplies the
right result by the left one); the comparisons and the equality
operators return the comparison of the evaluated scalars and unary
negation wraps the negated evaluated scalar; and a node built by the
literal value constructor evaluates to exactly its wrapped scalar in any
state in which it is stored, so the wrapped result is independent of any
later mutation of the operand nodes. -/
theorem C8_operator_surface (fuel : Nat) (s s1 s2 : EngineState)
    (a b : NodeId) (va vb : Scalar)
    (h1 : evaluate fuel s a = some (va, s1))
    (h2 : evaluate fuel s1 b = some (vb, s2)) :
    opAdd fuel s a b = some (mkNeuralScalar (va + vb), s2) ∧
    opSub fuel s a b = some (mkNeuralScalar (va - vb), s2) ∧
    opMul fuel s a b = some (mkNeuralScalar (vb * va), s2) ∧
    opDiv fuel s a b = some (mkNeuralScalar (va / vb), s2) ∧
    opNeg fuel s a = some (mkNeuralScalar (-va), s1) ∧
    opLt fuel s a b = some (decide (va < vb), s2) ∧
    opLe fuel s a b = some (decide (va ≤ vb), s2) ∧
    opGt fuel s a b = some (decide (vb < va), s2) ∧
    opEq fuel s a b = some (decide (va = vb), s2) ∧
    opNe fuel s a b = some (decide (va ≠ vb), s2) ∧
    (∀ x : Scalar, (mkNeuralScalar x).inputs = [] ∧
      (mkNeuralScalar x).net = {} ∧ (mkNeuralScalar x).value = x) ∧
    (∀ (x : Scalar) (t : EngineState) (j : NodeId) (f2 : Nat),
      lookupNode t j = some (mkNeuralScalar x) →
      evaluate (f2 + 1) t j
        = some (x, setNode t j
            { mkNeuralScalar x with is_dirty := false, cache := x })) := by
  refine ⟨?_, ?_, ?_, ?_, ?_, ?_, ?_, ?_, ?_, ?_, ?_, ?_⟩
  · simp [opAdd, h1, h2]
  · simp [opSub, h1, h2]
  · simp [opMul, h1, h2]
  · simp [opDiv, h1, h2]
  · simp [opNeg, h1]
  · simp [opLt, h1, h2]
  · simp [opLe, h1, h2]
  · simp [opGt, h1, h2]
  · simp [opEq, h1, h2]
  · simp [opNe, h1, h2]
  · intro x
    exact ⟨rfl, rfl, rfl⟩
  · intro x t j f2 hj
    simp [evaluate, hj, mkNeuralScalar]

def w8a : NeuralScalarNode := { value := 3, cache := 3, is_dirty := false }

def w8b : NeuralScalarNode := { value := 2, cache := 2, is_dirty := false }

def w8 : EngineState :=
  { nodes := fun j =>
      if j = 0 then some w8a else if j = 1 then some w8b else none }

/-- C8 witness: with the clean operand nodes holding 3 and 2, the
operators produce plain nodes wrapping 5, 1, 6 and 1, the comparisons
false, false, true, false, true, negation wraps minus 3, and a fresh
node wrapping 5 evaluates to 5 in a state of its own. -/
theorem C8_operator_surface_witness :
    opAdd 1 w8 0 1 = some (mkNeuralScalar 5, w8) ∧
    opSub 1 w8 0 1 = some (mkNeuralScalar 1, w8) ∧
    opMul 1 w8 0 1 = some (mkNeuralScalar 6, w8) ∧
    opDiv 1 w8 0 1 = some (mkNeuralScalar 1, w8) ∧
    opNeg 1 w8 0 = some (mkNeuralScalar (-3), w8) ∧
    opLt 1 w8 0 1 = some (false, w8) ∧
    (mkNeuralScalar 5).inputs = [] ∧
    evaluate 1 { nodes := fun j => if j = 9 then some (mkNeuralScalar 5) else none } 9
      = some (5, setNode
          { nodes := fun j => if j = 9 then some (mkNeuralScalar 5) else none } 9
          { mkNeuralScalar 5 with is_dirty := false, cache := 5 }) := by
  have h := C8_operator_surface 1 w8 w8 w8 0 1 3 2 rfl rfl
  exact ⟨h.1, h.2.1, h.2.2.1, h.2.2.2.1, h.2.2.2.2.1, h.2.2.2.2.2.1,
    (h.2.2.2.2.2.2.2.2.2.2.1 5).1,
    h.2.2.2.2.2.2.2.2.2.2.2 5 _ 9 0 rfl⟩

/-
Evaluation only writes caches and dirty flags: the publicly assigned
part of every node (value, inputs, network, name, residual flag) is
preserved by the whole recursive evaluation protocol. This backs the
frame part of claim C9.
-/

/-- The fields of a node that evaluation never writes. -/
def samePublic (a b : NeuralScalarNode) : Prop :=
  b.value = a.value ∧ b.inputs = a.inputs ∧ b.net = a.net ∧
  b.name = a.name ∧ b.is_residual = a.is_residual

/-- Every node of the first state survives into the second with its
public fields unchanged. -/
def nodesPreserved (s s2 : EngineState) : Prop :=
  ∀ j n, lookupNode s j = some n →
    ∃ n2, lookupNode s2 j = some n2 ∧ samePublic n n2

theorem samePublic_refl (a : NeuralScalarNode) : samePublic a a :=
  ⟨rfl, rfl, rfl, rfl, rfl⟩

theorem samePublic_trans {a b c : NeuralScalarNode}
    (h1 : samePublic a b) (h2 : samePublic b c) : samePublic a c := by
  obtain ⟨x1, x2, x3, x4, x5⟩ := h1
  obtain ⟨y1, y2, y3, y4, y5⟩ := h2
  exact ⟨y1.trans x1, y2.trans x2, y3.trans x3, y4.trans x4, y5.trans x5⟩

theorem nodesPreserved_refl (s : EngineState) : nodesPreserved s s :=
  fun _ n h => ⟨n, h, samePublic_refl n⟩

theorem nodesPreserved_trans {s1 s2 s3 : EngineState}
    (h12 : nodesPreserved s1 s2) (h23 : nodesPreserved s2 s3) :
    nodesPreserved s1 s3 := by
  intro j n hj
  obtain ⟨n2, hl2, hp2⟩ := h12 j n hj
  obtain ⟨n3, hl3, hp3⟩ := h23 j n2 hl2
  exact ⟨n3, hl3, samePublic_trans hp2 hp3⟩

theorem nodesPreserved_of_nodes_eq {s s2 : EngineState}
    (h : s2.nodes = s.nodes) : nodesPreserved s s2 := by
  intro j n hj
  refine ⟨n, ?_, samePublic_refl n⟩
  rw [lookupNode, h]
  exact hj

theorem lookupNode_setNode (s : EngineState) (id : NodeId)
    (n2 : NeuralScalarNode) (j : NodeId) :
    lookupNode (setNode s id n2) j = if j = id then some n2 else lookupNode s j := by
  simp [lookupNode, setNode]

theorem nodesPreserved_setNode (s : EngineState) (id : NodeId)
    (n n2 : NeuralScalarNode) (h : lookupNode s id = some n)
    (hp : samePublic n n2) : nodesPreserved s (setNode s id n2) := by
  intro j m hj
  rw [lookupNode_setNode]
  by_cases hji : j = id
  · subst hji
    rw [h] at hj
    obtain rfl := Option.some.inj hj
    exact ⟨n2, by simp, hp⟩
  · exact ⟨m, by simp [hji, hj], samePublic_refl m⟩

theorem getOrInsertNamed_nodes (s : EngineState) (nm : String) :
    (getOrInsertNamed s nm).2.nodes = s.nodes := by
  unfold getOrInsertNamed
  cases s.named_scalars nm <;> rfl

/-- Evaluation, network evaluation, its body and the input loop preserve
the public fields of every node of the state. -/
theorem evalAll_preserves (fuel : Nat) :
    (∀ s id r, evaluate fuel s id = some r → nodesPreserved s r.2) ∧
    (∀ s id r, evalNetwork fuel s id = some r → nodesPreserved s r.2) ∧
    (∀ s id r, evalNetworkBody fuel s id = some r → nodesPreserved s r.2) ∧
    (∀ s inps i s2, evalInputsLoop fuel s inps i = some s2 →
      nodesPreserved s s2) := by
  induction fuel with
  | zero =>
      exact ⟨fun s id r h => Option.noConfusion h,
        fun s id r h => Option.noConfusion h,
        fun s id r h => Option.noConfusion h,
        fun s inps i s2 h => Option.noConfusion h⟩
  | succ f ih =>
      obtain ⟨ihE, ihN, ihB, ihL⟩ := ih
      refine ⟨?_, ?_, ?_, ?_⟩
      · intro s id r h
        cases hn : lookupNode s id with
        | none => simp [evaluate, hn] at h
        | some n =>
            simp only [evaluate, hn] at h
            by_cases hd : n.is_dirty = false
            · rw [if_pos hd] at h
              obtain rfl := Option.some.inj h
              exact nodesPreserved_refl s
            · rw [if_neg hd] at h
              by_cases hi : n.inputs = []
              · rw [if_pos hi] at h
                obtain rfl := Option.some.inj h
                exact nodesPreserved_setNode s id n _ hn
                  ⟨rfl, rfl, rfl, rfl, rfl⟩
              · rw [if_neg hi] at h
                cases hN : evalNetwork f s id with
                | none => rw [hN] at h; exact Option.noConfusion h
                | some p =>
                    obtain ⟨out, s1⟩ := p
                    rw [hN] at h
                    dsimp only at h
                    cases hL : lookupNode s1 id with
                    | none => rw [hL] at h; exact Option.noConfusion h
                    | some n2 =>
                        rw [hL] at h
                        dsimp only at h
                        obtain rfl := Option.some.inj h
                        exact nodesPreserved_trans (ihN s id (out, s1) hN)
                          (nodesPreserved_setNode s1 id n2 _ hL
                            ⟨rfl, rfl, rfl, rfl, rfl⟩)
      · intro s id r h
        cases hn : lookupNode s id with
        | none => simp [evalNetwork, hn] at h
        | some n =>
            simp only [evalNetwork, hn] at h
            by_cases hnm : n.name = ""
            · rw [if_pos hnm] at h
              exact ihB s id r h
            · rw [if_neg hnm] at h
              rcases hg : getOrInsertNamed s n.name with ⟨entry, s1⟩
              rw [hg] at h
              dsimp only at h
              have hs1 : nodesPreserved s s1 := by
                have hnodes := getOrInsertNamed_nodes s n.name
                rw [hg] at hnodes
                exact nodesPreserved_of_nodes_eq hnodes
              by_cases he : entry = some id
              · rw [if_pos he] at h
                exact nodesPreserved_trans hs1 (ihB s1 id r h)
              · rw [if_neg he] at h
                cases entry with
                | none => exact Option.noConfusion h
                | some other =>
                    exact nodesPreserved_trans hs1 (ihN s1 other r h)
      · intro s id r h
        cases hn : lookupNode s id with
        | none => simp [evalNetworkBody, hn] at h
        | some n =>
            simp only [evalNetworkBody, hn] at h
            cases hLp : evalInputsLoop f
                { s with input_buffer := some (match s.input_buffer with
                    | none => List.replicate n.inputs.length 0
                    | some b => b) } n.inputs 0 with
            | none => rw [hLp] at h; exact Option.noConfusion h
            | some s3 =>
                rw [hLp] at h
                dsimp only at h
                cases hL2 : lookupNode s3 id with
                | none => rw [hL2] at h; exact Option.noConfusion h
                | some n2 =>
                    rw [hL2] at h
                    dsimp only at h
                    obtain rfl := Option.some.inj h
                    have hstep2 := ihL _ n.inputs 0 s3 hLp
                    refine nodesPreserved_trans (nodesPreserved_of_nodes_eq rfl)
                      (nodesPreserved_trans hstep2 ?_)
                    exact nodesPreserved_of_nodes_eq rfl
      · intro s inps i s2 h
        cases inps with
        | nil =>
            simp only [evalInputsLoop] at h
            obtain rfl := Option.some.inj h
            exact nodesPreserved_refl _
        | cons hd tl =>
            cases hd with
            | none =>
                simp only [evalInputsLoop] at h
                exact ihL s tl (i + 1) s2 h
            | some inpId =>
                simp only [evalInputsLoop] at h
                cases hE : evaluate f s inpId with
                | none => rw [hE] at h; exact Option.noConfusion h
                | some p =>
                    obtain ⟨v, s1⟩ := p
                    rw [hE] at h
                    dsimp only at h
                    cases hB : s1.input_buffer with
                    | none => rw [hB] at h; exact Option.noConfusion h
                    | some buf =>
                        rw [hB] at h
                        dsimp only at h
                        by_cases hlen : i < buf.length
                        · rw [if_pos hlen] at h
                          have hstep2 := ihL _ tl (i + 1) s2 h
                          exact nodesPreserved_trans (ihE s inpId (v, s1) hE)
                            (nodesPreserved_trans
                              (nodesPreserved_of_nodes_eq rfl) hstep2)
                        · rw [if_neg hlen] at h
                          exact Option.noConfusion h

/-
Claim C9: direct and compound assignment.
-/

/-- C9: direct assignment from a node, a raw scalar or a double, and the
four compound assignment operators, write only the stored value (from
the evaluated operand) and the dirty flag of the receiving node, which
is set unconditionally; the inputs, network, name and cache of the
receiving node are untouched by the write, and the operand evaluation
itself never changes the value, inputs, network or name of any node, so
those fields of the receiving node equal their values before the
operation. -/
theorem C9_assignment_ops (fuel : Nat) (s s1 : EngineState)
    (target rhs : NodeId) (v x : Scalar) (n0 n1 : NeuralScalarNode)
    (h0 : lookupNode s target = some n0)
    (h2 : evaluate fuel s rhs = some (v, s1))
    (h3 : lookupNode s1 target = some n1) :
    (n1.value = n0.value ∧ n1.inputs = n0.inputs ∧ n1.net = n0.net ∧
      n1.name = n0.name) ∧
    assignFromNode fuel s target rhs
      = some (setNode s1 target { n1 with value := v, is_dirty := true }) ∧
    assignFromScalar s target x
      = some (setNode s target { n0 with value := x, is_dirty := true }) ∧
    assignFromDouble s target x
      = some (setNode s target { n0 with value := x, is_dirty := true }) ∧
    addAssign fuel s target rhs
      = some (setNode s1 target
          { n1 with value := n1.value + v, is_dirty := true }) ∧
    subAssign fuel s target rhs
      = some (setNode s1 target
          { n1 with value := n1.value - v, is_dirty := true }) ∧
    mulAssign fuel s target rhs
      = some (setNode s1 target
          { n1 with value := n1.value * v, is_dirty := true }) ∧
    divAssign fuel s target rhs
      = some (setNode s1 target
          { n1 with value := n1.value / v, is_dirty := true }) ∧
    (∀ y : Scalar,
      ({ n1 with value := y, is_dirty := true } : NeuralScalarNode).cache
          = n1.cache ∧
      ({ n1 with value := y, is_dirty := true } : NeuralScalarNode).inputs
          = n1.inputs ∧
      ({ n1 with value := y, is_dirty := true } : NeuralScalarNode).net
          = n1.net ∧
      ({ n1 with value := y, is_dirty := true } : NeuralScalarNode).name
          = n1.name) := by
  refine ⟨?_, ?_, ?_, ?_, ?_, ?_, ?_, ?_, ?_⟩
  · have hpres := (evalAll_preserves fuel).1 s rhs (v, s1) h2
    obtain ⟨n2, hl2, hp2⟩ := hpres target n0 h0
    obtain rfl : n2 = n1 := Option.some.inj (hl2.symm.trans h3)
    obtain ⟨hv, hi, hn, hnm, _⟩ := hp2
    exact ⟨hv, hi, hn, hnm⟩
  · simp [assignFromNode, h2, h3]
  · simp [assignFromScalar, h0]
  · simp [assignFromDouble, h0]
  · simp [addAssign, h2, h3]
  · simp [subAssign, h2, h3]
  · simp [mulAssign, h2, h3]
  · simp [divAssign, h2, h3]
  · intro y
    exact ⟨rfl, rfl, rfl, rfl⟩

def w9t : NeuralScalarNode := { value := 10, cache := 10, is_dirty := false }

def w9r : NeuralScalarNode := { value := 7, cache := 2, is_dirty := false }

def w9 : EngineState :=
  { nodes := fun j =>
      if j = 0 then some w9t else if j = 1 then some w9r else none }

/-- C9 witness: the clean operand node 1 evaluates to its cache 2 and
the assignment operators write node 0 accordingly: direct assignment
stores 2, the raw scalar assignment stores 8, the compound plus
assignment stores 12, all marking node 0 dirty. -/
theorem C9_assignment_ops_witness :
    assignFromNode 1 w9 0 1
      = some (setNode w9 0 { w9t with value := 2, is_dirty := true }) ∧
    assignFromScalar w9 0 8
      = some (setNode w9 0 { w9t with value := 8, is_dirty := true }) ∧
    addAssign 1 w9 0 1
      = some (setNode w9 0 { w9t with value := 12, is_dirty := true }) ∧
    divAssign 1 w9 0 1
      = some (setNode w9 0 { w9t with value := 5, is_dirty := true }) ∧
    ({ w9t with value := 12, is_dirty := true } : NeuralScalarNode).inputs
      = w9t.inputs := by
  have h := C9_assignment_ops 1 w9 w9 0 1 2 8 w9t w9t rfl rfl rfl
  exact ⟨h.2.1, h.2.2.1, h.2.2.2.2.1, h.2.2.2.2.2.2.2.1, (h.2.2.2.2.2.2.2.2 12).2.1⟩

/-
Claim C10: assign does not touch value, cache or dirty flag.
-/

/-- C10: a successful assign leaves the stored value, the cache and the
dirty flag of the node unchanged (whether or not a blueprint was
consumed), so a node that was clean before the call is still clean and
a subsequent evaluation still returns the previously cached value with
no state change. -/
theorem C10_assign_frame (s : EngineState) (id : NodeId) (nm : String)
    (n : NeuralScalarNode) (h1 : lookupNode s id = some n) :
    (∀ s2, assign s id nm = some s2 →
      ∃ n2, lookupNode s2 id = some n2 ∧ n2.value = n.value ∧
        n2.cache = n.cache ∧ n2.is_dirty = n.is_dirty) ∧
    (∀ s2, assign s id nm = some s2 → n.is_dirty = false →
      ∀ fuel, evaluate (fuel + 1) s2 id = some (n.cache, s2)) := by
  have hkey : ∀ s2, assign s id nm = some s2 →
      ∃ n2, lookupNode s2 id = some n2 ∧ n2.value = n.value ∧
        n2.cache = n.cache ∧ n2.is_dirty = n.is_dirty := by
    intro s2 hs2
    cases hbp : s.blueprints nm with
    | none =>
        simp only [assign, h1, hbp] at hs2
        obtain rfl := Option.some.inj hs2
        refine ⟨{ n with name := nm }, ?_, rfl, rfl, rfl⟩
        rw [lookupNode_registerNamed]
        exact lookupNode_setNode_self ..
    | some bp =>
        cases hrs : resolveNames s bp.input_names with
        | none => simp [assign, h1, hbp, hrs] at hs2
        | some rs =>
            simp only [assign, h1, hbp, hrs] at hs2
            obtain rfl := Option.some.inj hs2
            refine ⟨{ n with
                name := nm
                inputs := n.inputs ++ rs.map some
                net := bp.net }, ?_, rfl, rfl, rfl⟩
            rw [lookupNode_registerNamed]
            exact lookupNode_setNode_self ..
  refine ⟨hkey, ?_⟩
  intro s2 hs2 hclean fuel
  obtain ⟨n2, hl2, _, hc2, hd2⟩ := hkey s2 hs2
  rw [hclean] at hd2
  rw [← hc2]
  simp [evaluate, hl2, hd2]

def w10n : NeuralScalarNode := { value := 5, cache := 9, is_dirty := false }

def w10 : EngineState := { nodes := fun j => if j = 0 then some w10n else none }

/-- C10 witness: assigning the name z (no blueprint present) to the
concrete clean node 0 leaves value 5, cache 9 and the clean state in
place, and evaluation of the renamed node still returns the cached 9. -/
theorem C10_assign_frame_witness :
    evaluate 1 (registerNamed (setNode w10 0 { w10n with name := "z" }) "z" 0) 0
      = some (w10n.cache,
          registerNamed (setNode w10 0 { w10n with name := "z" }) "z" 0) ∧
    ((assign w10 0 "z").bind fun s2 => lookupNode s2 0).map
        (fun n2 => (n2.value, n2.cache, n2.is_dirty)) = some (5, 9, false) :=
  ⟨(C10_assign_frame w10 0 "z" w10n rfl).2 _ rfl rfl 0, by decide⟩

end NeuralScalar
